import Mathlib

set_option maxRecDepth 16000

/-
Shallow embedding of the grocery-app product store (src/database.py,
src/app.py, src/models.py) and proofs about its specified behavior.

Modelling conventions:
* SQLite rows are Lean structures; the `products` table is a `List Product`
  together with the AUTOINCREMENT counter `nextId`.
* Schema state (the `products` table and the unique index
  `idx_products_name` created by `DatabaseManager.create_table`) is a pair
  of Booleans on the store state; `CREATE ... IF NOT EXISTS` sets them.
* Python `str.strip()` is `pyStrip` (ASCII whitespace).
* Python `float(raw)` is `parseFloat`, returning `Option Rat`: `none` models
  the raised `ValueError` for non-numeric text.  Plain decimal literals with
  an optional sign and fraction are modelled; exponent/inf/nan forms, which
  no code path or datum here uses, are out of scope.  Real values are
  modelled exactly as rationals.
* SQLite `LIKE` (no ESCAPE clause anywhere in the source) is `likeMatch`:
  `%` matches any sequence, `_` any single character, other characters
  compare ASCII-case-insensitively, as SQLite's default LIKE does.
-/

namespace Grocery

/-- Whitespace characters stripped by Python `str.strip()` (ASCII subset). -/
def isPySpace (c : Char) : Bool :=
  c.toNat = 32 || c.toNat = 9 || c.toNat = 10 || c.toNat = 13 ||
  c.toNat = 11 || c.toNat = 12

/-- Python `str.strip()`: drop leading and trailing whitespace. -/
def pyStrip (s : String) : String :=
  String.mk (((s.data.dropWhile isPySpace).reverse.dropWhile isPySpace).reverse)

/-- ASCII decimal digit test. -/
def isAsciiDigit (c : Char) : Bool :=
  48 ≤ c.toNat && c.toNat ≤ 57

/-- Numeric value of a list of decimal digit characters. -/
def digitsToNat (l : List Char) : Nat :=
  l.foldl (fun a c => a * 10 + (c.toNat - 48)) 0

/-- Python `float(raw)` on the decimal-literal forms used by this program:
optional surrounding whitespace, optional sign, digits with an optional
fractional part.  `none` models the raised `ValueError`. -/
def parseFloat (s : String) : Option Rat :=
  let l := (pyStrip s).data
  let signBody : Int × List Char :=
    match l with
    | '-' :: t => (-1, t)
    | '+' :: t => (1, t)
    | _ => (1, l)
  let intPart := signBody.2.takeWhile isAsciiDigit
  let rest := signBody.2.dropWhile isAsciiDigit
  match rest with
  | [] =>
    if intPart.isEmpty then none
    else some ((signBody.1 * (digitsToNat intPart : Int) : Int) : Rat)
  | '.' :: frac =>
    if frac.all isAsciiDigit && !(intPart.isEmpty && frac.isEmpty) then
      some ((signBody.1 : Rat) *
        ((digitsToNat intPart : Rat) + (digitsToNat frac : Rat) / ((10 : Rat) ^ frac.length)))
    else none
  | _ => none

/-- SQLite `LIKE` matcher with explicit fuel so that it is structurally
recursive and kernel-evaluable.  `%` matches any character sequence, `_`
exactly one character; other characters compare ASCII-case-insensitively
(SQLite's default LIKE behavior).  Each recursive call shortens
pattern + text, so fuel `p.length + s.length + 1` always suffices. -/
def likeMatchF : Nat → List Char → List Char → Bool
  | 0, _, _ => false
  | _ + 1, [], [] => true
  | _ + 1, [], _ :: _ => false
  | fuel + 1, '%' :: ps, [] => likeMatchF fuel ps []
  | fuel + 1, '%' :: ps, c :: s =>
    likeMatchF fuel ps (c :: s) || likeMatchF fuel ('%' :: ps) s
  | fuel + 1, '_' :: ps, _ :: s => likeMatchF fuel ps s
  | fuel + 1, p :: ps, c :: s =>
    (p.toLower = c.toLower) && likeMatchF fuel ps s
  | _ + 1, _ :: _, [] => false

/-- SQLite `LIKE`: does `s` match pattern `p`? -/
def likeMatch (p s : List Char) : Bool :=
  likeMatchF (p.length + s.length + 1) p s

/-- Product record (src/models.py `Product`, one row of the `products`
table): surrogate id, name, price, optional category. -/
structure Product where
  id : Nat
  name : String
  price : Rat
  category : Option String
deriving DecidableEq

/-- Store state: schema flags set by `create_table` (the `products` table
and the unique index `idx_products_name`), the AUTOINCREMENT counter, and
the persisted rows in insertion order. -/
structure DBState where
  tableExists : Bool
  indexExists : Bool
  nextId : Nat
  products : List Product
deriving DecidableEq

/-- Freshly initialized empty store (schema created, no rows; SQLite rowids
start at 1). -/
def initState : DBState :=
  { tableExists := true, indexExists := true, nextId := 1, products := [] }

/-- DatabaseManager.create_table: `CREATE TABLE IF NOT EXISTS products` and
`CREATE UNIQUE INDEX IF NOT EXISTS idx_products_name ON products(name)`. -/
def create_table (s : DBState) : DBState :=
  { s with tableExists := true, indexExists := true }

/-- SQL `INSERT OR IGNORE INTO products (name, price, category)`: the row is
ignored exactly when the unique index exists and a row with the same name is
already present (the source comments note OR IGNORE only ignores duplicates
because of that index).  Returns the new state and whether a row was
inserted (`cursor.rowcount == 1`). -/
def insertOrIgnore (name : String) (price : Rat) (category : Option String)
    (s : DBState) : DBState × Bool :=
  if s.indexExists && s.products.any (fun p => p.name == name) then (s, false)
  else
    ({ s with
        nextId := s.nextId + 1
        products := s.products ++ [⟨s.nextId, name, price, category⟩] }, true)

/-- DatabaseManager.insert_product (and the INSERT in app.py `import_data`):
a plain `INSERT INTO products`.  With the unique index present, a duplicate
name raises `IntegrityError` — modelled as result `none` with the state
unchanged (the `with self.conn` transaction rolls back).  Otherwise the row
is appended and `cursor.lastrowid` returned. -/
def insert_product (name : String) (price : Rat) (category : Option String)
    (s : DBState) : DBState × Option Nat :=
  if s.indexExists && s.products.any (fun p => p.name == name) then (s, none)
  else
    ({ s with
        nextId := s.nextId + 1
        products := s.products ++ [⟨s.nextId, name, price, category⟩] },
     some s.nextId)

/-- Outcome of the app.py `import_data` POST handler, excluding rendering. -/
inductive ImportOutcome where
  | ok (id : Nat)
  | parseFailure
  | integrityFailure
deriving DecidableEq

/-- App route `import_data` (app.py): `price = float(request.form['price'])`
(a ValueError propagates), then a plain INSERT of the unvalidated,
untrimmed name and the category string as given (empty string included). -/
def import_data (name priceRaw category : String) (s : DBState) :
    DBState × ImportOutcome :=
  match parseFloat priceRaw with
  | none => (s, ImportOutcome.parseFailure)
  | some v =>
    match insert_product name v (some category) s with
    | (s', some id) => (s', ImportOutcome.ok id)
    | (s', none) => (s', ImportOutcome.integrityFailure)

/-- One loosely-typed row handed to `bulk_insert_products`
(`{'name': ..., 'price': ..., 'category': ...}`). -/
structure RawRow where
  name : String
  price : String
  category : Option String
deriving DecidableEq

/-- Reason a bulk row failed: `float()` raised, or the stripped name was
empty (`raise ValueError("Missing name")`). -/
inductive RowError where
  | parseError
  | missingName
deriving DecidableEq

/-- Category normalization in `bulk_insert_products`:
`category.strip() if isinstance(category, str) else category; category or None`. -/
def normCat (c : Option String) : Option String :=
  c.bind fun t => let u := pyStrip t; if u = "" then none else some u

/-- Result of `bulk_insert_products`:
`(success_count, error_count, errors)` plus the store state.  Each error
entry keeps the offending row together with the failure reason, modelling
`f"Row error: {prod} → {str(e)}"`. -/
structure BulkResult where
  state : DBState
  success : Nat
  errorCount : Nat
  errors : List (RawRow × RowError)
deriving DecidableEq

/-- One iteration of the `bulk_insert_products` loop body: strip the name,
parse the price (`float` may raise, caught per row), normalize the
category, reject an empty name, then `INSERT OR IGNORE`, counting success
only when `cursor.rowcount == 1`. -/
def processOne (r : RawRow) (s : DBState) : BulkResult :=
  match parseFloat r.price with
  | none => ⟨s, 0, 1, [(r, RowError.parseError)]⟩
  | some v =>
    if pyStrip r.name = "" then ⟨s, 0, 1, [(r, RowError.missingName)]⟩
    else
      let res := insertOrIgnore (pyStrip r.name) v (normCat r.category) s
      ⟨res.1, if res.2 then 1 else 0, 0, []⟩

/-- DatabaseManager.bulk_insert_products: best-effort loop over the rows,
accumulating success and error counts and the ordered error list. -/
def bulk_insert_products : List RawRow → DBState → BulkResult
  | [], s => ⟨s, 0, 0, []⟩
  | r :: rest, s =>
    let head := processOne r s
    let tail := bulk_insert_products rest head.state
    ⟨tail.state, head.success + tail.success,
     head.errorCount + tail.errorCount, head.errors ++ tail.errors⟩

/-- One CSV row as produced by `csv.DictReader`: only the header spellings
that actually occur appear as keys, so each of the six spellings the code
probes (`name`/`Name`, `price`/`Price`, `category`/`Category`) is an
optional field. -/
structure CsvRow where
  name : Option String
  nameCap : Option String
  price : Option String
  priceCap : Option String
  category : Option String
  categoryCap : Option String
deriving DecidableEq

/-- Python `r.get(lo) or r.get(hi) or ""`: the lowercase key's value unless
missing or empty, else the capitalized key's value, else `""`. -/
def extractField (lo hi : Option String) : String :=
  let a := lo.getD ""
  if a = "" then hi.getD "" else a

/-- Row preprocessing in `seed_from_csv_if_needed`: case-insensitive header
lookup, stripping, empty category to None, and skipping rows with a missing
name or price (`if not name or not price: continue`). -/
def processCsvRow (r : CsvRow) : Option RawRow :=
  let name := pyStrip (extractField r.name r.nameCap)
  let price := pyStrip (extractField r.price r.priceCap)
  let category :=
    let c := pyStrip (extractField r.category r.categoryCap)
    if c = "" then none else some c
  if name = "" ∨ price = "" then none
  else some ⟨name, price, category⟩

/-- DatabaseManager.seed_from_csv_if_needed, given the parsed CSV rows: a
no-op unless the table is empty; otherwise preprocess the rows and hand
them to `bulk_insert_products` (the printed counts are discarded). -/
def seed_from_csv_if_needed (rows : List CsvRow) (s : DBState) : DBState :=
  if 0 < s.products.length then s
  else (bulk_insert_products (rows.filterMap processCsvRow) s).state

/-- Store bring-up as performed by `DatabaseManager.__init__` and
`ensure_db_initialized`: create the schema, then seed if empty. -/
def ensure_db_initialized (rows : List CsvRow) (s : DBState) : DBState :=
  seed_from_csv_if_needed rows (create_table s)

/-- One row of an uploaded CSV file in app.py `import_file`: `dict(row)`
from `csv.DictReader`, with each relevant key possibly absent. -/
structure FileRow where
  name : Option String
  price : Option String
  category : Option String
deriving DecidableEq

/-- Result of the `import_file` loop: state, `success`, and the error list. -/
structure FileImportResult where
  state : DBState
  success : Nat
  errors : List (FileRow × RowError)
deriving DecidableEq

/-- Price lookup in `import_file`: `float(prod.get('price', 0))` — a missing
key defaults to 0, a non-numeric string raises. -/
def filePrice (r : FileRow) : Option Rat :=
  match r.price with
  | none => some 0
  | some pr => parseFloat pr

/-- One iteration of the app.py `import_file` loop body: strip the name,
parse the price, reject an empty name, `INSERT OR IGNORE`, then
`success += 1` unconditionally — the counter does not consult rowcount. -/
def processFileRow (r : FileRow) (s : DBState) :
    DBState × Nat × List (FileRow × RowError) :=
  match filePrice r with
  | none => (s, 0, [(r, RowError.parseError)])
  | some v =>
    let name := pyStrip (r.name.getD "")
    if name = "" then (s, 0, [(r, RowError.missingName)])
    else
      let cat :=
        let c := pyStrip (r.category.getD "")
        if c = "" then none else some c
      ((insertOrIgnore name v cat s).1, 1, [])

/-- App route `import_file` (app.py), given the parsed CSV rows: per-row
try/except accumulating `success` and `errors`. -/
def import_file_rows : List FileRow → DBState → FileImportResult
  | [], s => ⟨s, 0, []⟩
  | r :: rest, s =>
    let head := processFileRow r s
    let tail := import_file_rows rest head.1
    ⟨tail.state, head.2.1 + tail.success, head.2.2 ++ tail.errors⟩

/-- DatabaseManager.search_products (and the identical query in the app.py
`search` route): `SELECT ... WHERE name LIKE ? OR category LIKE ?` with
both parameters `f'%{query}%'` — the query text is interpolated into the
pattern unescaped.  A NULL category never matches. -/
def search_products (query : String) (s : DBState) : List Product :=
  let pat := ("%" ++ query ++ "%").data
  s.products.filter fun p =>
    likeMatch pat p.name.data ||
      (match p.category with
       | some c => likeMatch pat c.data
       | none => false)

/-- Search as a store operation: the source runs a single SELECT and never
writes, so the operation returns the rows together with the store state it
was given. -/
def search_op (query : String) (s : DBState) : DBState × List Product :=
  (s, search_products query s)

/-- Uniqueness invariant on persisted rows: no two products share a name. -/
def namesUnique (s : DBState) : Prop :=
  s.products.Pairwise fun a b => a.name ≠ b.name

/-- CsvRow carrying only lowercase headers `name,price,category`. -/
def lowRow (t : String × String × Option String) : CsvRow :=
  ⟨some t.1, none, some t.2.1, none, t.2.2, none⟩

/-- CsvRow carrying only capitalized headers `Name,Price,Category`. -/
def capRow (t : String × String × Option String) : CsvRow :=
  ⟨none, some t.1, none, some t.2.1, none, t.2.2⟩

/-- Store used in the search scenarios of the spec: one name with a literal
`50%`, one with a literal `100%`, and one with `1000` and no `%`. -/
def c1Store : DBState :=
  ⟨true, true, 4,
   [⟨1, "Sale 50% Off", 10, none⟩,
    ⟨2, "Discount 100% Today", 20, none⟩,
    ⟨3, "Discount 1000Today", 30, none⟩]⟩

/-- Bulk row with a valid price. -/
def rowApple : RawRow := ⟨"Apple", "1", some "Fruit"⟩

/-- Bulk row whose price is the non-numeric string `abc`. -/
def rowBread : RawRow := ⟨"Bread", "abc", none⟩

/-- Bulk row with a valid price. -/
def rowMilk : RawRow := ⟨"Milk", "2", none⟩

/-- Bulk row with a negative price. -/
def rowSoap : RawRow := ⟨"Soap", "-1", none⟩

/-- Bulk row with price zero. -/
def rowZero : RawRow := ⟨"Zero", "0", none⟩

/-- Uploaded-file row naming Milk. -/
def fileMilk : FileRow := ⟨some "Milk", some "2", none⟩

/-- Name of 201 characters (exceeds the spec's 200-character bound). -/
def longName : String := String.mk (List.replicate 201 'a')

/-- Bulk row whose name has 201 characters. -/
def longRow : RawRow := ⟨longName, "1", none⟩

/-- Name of exactly 200 characters. -/
def name200 : String := String.mk (List.replicate 200 'b')

/-- Bulk row whose name has exactly 200 characters. -/
def row200 : RawRow := ⟨name200, "1", none⟩

/-- Store already holding one product (used to exercise no-op seeding and
duplicate handling). -/
def stMilk : DBState := ⟨true, true, 2, [⟨1, "Milk", 2, none⟩]⟩

/-- CSV row with lowercase headers naming Milk. -/
def csvMilkLow : CsvRow := ⟨some "Milk", none, some "2", none, none, none⟩

/-- CSV row missing its name field entirely. -/
def csvNoName : CsvRow := ⟨none, none, some "2", none, none, none⟩

/-- Fuel is irrelevant for the pattern `%` once it exceeds the text length:
the bare wildcard matches everything. -/
lemma likeMatchF_percent : ∀ (l : List Char) (fuel : Nat), l.length + 2 ≤ fuel →
    likeMatchF fuel ['%'] l = true := by
  intro l
  induction l with
  | nil =>
    intro fuel h
    obtain ⟨f, rfl⟩ : ∃ f, fuel = f + 1 := ⟨fuel - 1, by omega⟩
    obtain ⟨g, rfl⟩ : ∃ g, f = g + 1 := ⟨f - 1, by omega⟩
    simp [likeMatchF]
  | cons c t ih =>
    intro fuel h
    obtain ⟨f, rfl⟩ : ∃ f, fuel = f + 1 := ⟨fuel - 1, by omega⟩
    have ht : likeMatchF f ['%'] t = true := by
      apply ih
      simp only [List.length_cons] at h
      omega
    simp [likeMatchF, ht]

/-- The pattern `%%` (what `f'%{query}%'` becomes for the empty query)
matches every text, given enough fuel. -/
lemma likeMatchF_percent2 (l : List Char) (fuel : Nat) (h : l.length + 3 ≤ fuel) :
    likeMatchF fuel ['%', '%'] l = true := by
  obtain ⟨f, rfl⟩ : ∃ f, fuel = f + 1 := ⟨fuel - 1, by omega⟩
  cases l with
  | nil =>
    have h0 : likeMatchF f ['%'] ([] : List Char) = true :=
      likeMatchF_percent [] f (by simp at h ⊢; omega)
    simp [likeMatchF, h0]
  | cons c t =>
    have h0 : likeMatchF f ['%'] (c :: t) = true :=
      likeMatchF_percent (c :: t) f (by simp at h ⊢; omega)
    simp [likeMatchF, h0]

/-- The pattern `%%` matches every text. -/
lemma likeMatch_double_percent (l : List Char) : likeMatch ['%', '%'] l = true := by
  unfold likeMatch
  apply likeMatchF_percent2
  simp only [List.length_cons, List.length_nil]
  omega

/-- A leading wildcard may match the empty prefix: if the remaining pattern
matches the text, prefixing the pattern with `%` keeps it matching. -/
lemma likeMatchF_percent_skip (ps t : List Char) (fuel : Nat)
    (h : likeMatchF fuel ps t = true) :
    likeMatchF (fuel + 1) ('%' :: ps) t = true := by
  cases t with
  | nil => simpa [likeMatchF] using h
  | cons c s => simp [likeMatchF, h]

/-- A leading wildcard absorbs an arbitrary prefix of the text. -/
lemma likeMatchF_percent_absorb (u : List Char) (ps t : List Char) (fuel : Nat)
    (h : likeMatchF fuel ('%' :: ps) t = true) :
    likeMatchF (fuel + u.length) ('%' :: ps) (u ++ t) = true := by
  induction u with
  | nil => simpa using h
  | cons a u' ih =>
    have hlen : fuel + (a :: u').length = (fuel + u'.length) + 1 := rfl
    rw [hlen]
    simp only [List.cons_append]
    simp [likeMatchF]
    exact Or.inr ih

/-- The pattern `q ++ ['%']` matches any text that begins with `q` itself:
every literal character of `q` matches its own occurrence, a `%` or `_`
inside `q` consumes exactly its own occurrence, and the trailing wildcard
absorbs the remainder. -/
lemma likeMatchF_self_mid : ∀ (qd v : List Char) (fuel : Nat),
    2 * qd.length + v.length + 2 ≤ fuel →
    likeMatchF fuel (qd ++ ['%']) (qd ++ v) = true := by
  intro qd
  induction qd with
  | nil =>
    intro v fuel h
    simpa using likeMatchF_percent v fuel (by omega)
  | cons c q' ih =>
    intro v fuel h
    simp only [List.length_cons] at h
    obtain ⟨f, rfl⟩ : ∃ f, fuel = f + 1 := ⟨fuel - 1, by omega⟩
    simp only [List.cons_append]
    by_cases hc : c = '%'
    · subst hc
      obtain ⟨g, rfl⟩ : ∃ g, f = g + 1 := ⟨f - 1, by omega⟩
      have hin : likeMatchF g (q' ++ ['%']) (q' ++ v) = true :=
        ih v g (by omega)
      have hskip := likeMatchF_percent_skip (q' ++ ['%']) (q' ++ v) g hin
      simp [likeMatchF]
      exact Or.inr hskip
    · by_cases hu : c = '_'
      · subst hu
        simp only [likeMatchF]
        exact ih v f (by omega)
      · simp [likeMatchF, hc, hu]
        exact ih v f (by omega)

/-- LIKE with pattern `%q%` matches every text containing `q` as a literal
segment. -/
lemma likeMatch_contains (qd u v : List Char) :
    likeMatch ('%' :: (qd ++ ['%'])) (u ++ (qd ++ v)) = true := by
  unfold likeMatch
  have hcore : likeMatchF (2 * qd.length + v.length + 2)
      (qd ++ ['%']) (qd ++ v) = true :=
    likeMatchF_self_mid qd v _ (Nat.le_refl _)
  have hskip := likeMatchF_percent_skip _ _ _ hcore
  have habs := likeMatchF_percent_absorb u _ _ _ hskip
  have hfuel : ('%' :: (qd ++ ['%'])).length + (u ++ (qd ++ v)).length + 1 =
      2 * qd.length + v.length + 2 + 1 + u.length := by
    simp [List.length_append]
    omega
  rw [hfuel]
  exact habs

/-- Processing a concatenated batch processes the first part, then the
second from the resulting state, adding the counts and concatenating the
error lists: no row's failure ever stops the loop. -/
lemma bulk_insert_products_append (xs ys : List RawRow) (s : DBState) :
    bulk_insert_products (xs ++ ys) s =
      ⟨(bulk_insert_products ys (bulk_insert_products xs s).state).state,
       (bulk_insert_products xs s).success +
         (bulk_insert_products ys (bulk_insert_products xs s).state).success,
       (bulk_insert_products xs s).errorCount +
         (bulk_insert_products ys (bulk_insert_products xs s).state).errorCount,
       (bulk_insert_products xs s).errors ++
         (bulk_insert_products ys (bulk_insert_products xs s).state).errors⟩ := by
  induction xs generalizing s with
  | nil => simp [bulk_insert_products]
  | cons r rest ih =>
    simp [bulk_insert_products, ih, Nat.add_assoc, List.append_assoc]

/-- Claim C1 counterexample: the query text is interpolated unescaped into
the LIKE pattern, so the `%` in the query `100%` acts as a wildcard and the
search also returns the product named `Discount 1000Today`, which the claim
says must not match. -/
theorem search_percent_wildcard_cex :
    (search_products "100%" c1Store).any
      (fun p => p.name == "Discount 1000Today") = true := by
  decide

/-- Claim C1 (amended): searching for literal query text containing `%`
still returns, in every store and for every query, every stored product
whose name contains that text literally (wildcard matching subsumes literal
containment), but the `%` is interpreted as a wildcard rather than escaped:
`50%` returns `Sale 50% Off`, and `100%` returns both `Discount 100% Today`
and `Discount 1000Today`. -/
theorem search_percent_amended :
    (∀ (q : String) (s : DBState) (p : Product) (u v : List Char),
       p ∈ s.products → p.name.data = u ++ (q.data ++ v) →
       p ∈ search_products q s) ∧
    search_products "50%" c1Store = [⟨1, "Sale 50% Off", 10, none⟩] ∧
    search_products "100%" c1Store =
      [⟨2, "Discount 100% Today", 20, none⟩, ⟨3, "Discount 1000Today", 30, none⟩] := by
  refine ⟨?_, by decide, by decide⟩
  intro q s p u v hmem hname
  simp only [search_products]
  apply List.mem_filter.mpr
  refine ⟨hmem, ?_⟩
  have hpat : ("%" ++ q ++ "%").data = '%' :: (q.data ++ ['%']) := by
    simp [String.data_append]
  rw [hpat, hname, likeMatch_contains]
  simp

/-- Witness for the amended C1 theorem: `Discount 100% Today` contains the
literal text `100%`, so searching `100%` returns that product. -/
theorem search_percent_amended_witness :
    (⟨2, "Discount 100% Today", 20, none⟩ : Product) ∈
      search_products "100%" c1Store :=
  search_percent_amended.1 "100%" c1Store ⟨2, "Discount 100% Today", 20, none⟩
    "Discount ".data " Today".data (by decide) (by decide)

/-- Claim C6: bulk import is best-effort — splitting the input anywhere,
the loop processes the second part from the state the first part left,
summing counts and concatenating the ordered error lists, so one row's
failure never aborts the batch; and the 3-row dataset whose second row has
the non-numeric price `abc` yields success 2, error count 1, and the one
error entry holds row 2's content with a parse-failure reason. -/
theorem bulk_import_best_effort :
    (∀ (xs ys : List RawRow) (s : DBState),
       bulk_insert_products (xs ++ ys) s =
         ⟨(bulk_insert_products ys (bulk_insert_products xs s).state).state,
          (bulk_insert_products xs s).success +
            (bulk_insert_products ys (bulk_insert_products xs s).state).success,
          (bulk_insert_products xs s).errorCount +
            (bulk_insert_products ys (bulk_insert_products xs s).state).errorCount,
          (bulk_insert_products xs s).errors ++
            (bulk_insert_products ys (bulk_insert_products xs s).state).errors⟩) ∧
    (bulk_insert_products [rowApple, rowBread, rowMilk] initState).success = 2 ∧
    (bulk_insert_products [rowApple, rowBread, rowMilk] initState).errorCount = 1 ∧
    (bulk_insert_products [rowApple, rowBread, rowMilk] initState).errors =
      [(rowBread, RowError.parseError)] :=
  ⟨bulk_insert_products_append, by decide, by decide, by decide⟩

/-- Claim C9: for every query and store state, search is read-only — the
store operation returns the state it was given, and the returned rows are a
sublist of the persisted products (a SELECT, no writes). -/
theorem search_leaves_store_unchanged :
    ∀ (q : String) (s : DBState),
      (search_op q s).1 = s ∧ ((search_op q s).2).Sublist s.products :=
  fun _ s => ⟨rfl, List.filter_sublist s.products⟩

/-- Claim C10: for the empty query the pattern becomes the bare wildcard
pair `%%`, which matches every (non-null) name, so search returns every
persisted product. -/
theorem empty_query_returns_all :
    ∀ s : DBState, search_products "" s = s.products := by
  intro s
  simp only [search_products]
  refine List.filter_eq_self.mpr ?_
  intro p _
  have hpat : ("%" ++ "" ++ "%" : String).data = ['%', '%'] := rfl
  rw [hpat, likeMatch_double_percent]
  simp

/-- One bulk row with a parseable price, a non-empty stripped name, and a
name not yet in the store inserts that row and reports one success. -/
lemma processOne_ok (r : RawRow) (s : DBState) (v : Rat)
    (hp : parseFloat r.price = some v) (hn : ¬ pyStrip r.name = "")
    (hdup : s.products.any (fun p => p.name == pyStrip r.name) = false) :
    processOne r s =
      ⟨{ s with
          nextId := s.nextId + 1
          products :=
            s.products ++ [⟨s.nextId, pyStrip r.name, v, normCat r.category⟩] },
       1, 0, []⟩ := by
  simp [processOne, hp, hn, insertOrIgnore, hdup]

/-- Bulk insert of a single fresh valid row: one success, no errors, the
row appended. -/
lemma bulk_single_ok (r : RawRow) (s : DBState) (v : Rat)
    (hp : parseFloat r.price = some v) (hn : ¬ pyStrip r.name = "")
    (hdup : s.products.any (fun p => p.name == pyStrip r.name) = false) :
    bulk_insert_products [r] s =
      ⟨{ s with
          nextId := s.nextId + 1
          products :=
            s.products ++ [⟨s.nextId, pyStrip r.name, v, normCat r.category⟩] },
       1, 0, []⟩ := by
  simp [bulk_insert_products, processOne_ok r s v hp hn hdup]

/-- One bulk row whose name is already present (with the unique index in
place) is ignored by `INSERT OR IGNORE`: rowcount is 0, so it is counted
neither as a success nor as an error. -/
lemma processOne_dup (r : RawRow) (s : DBState) (v : Rat)
    (hidx : s.indexExists = true)
    (hp : parseFloat r.price = some v) (hn : ¬ pyStrip r.name = "")
    (hdup : s.products.any (fun p => p.name == pyStrip r.name) = true) :
    processOne r s = ⟨s, 0, 0, []⟩ := by
  simp [processOne, hp, hn, insertOrIgnore, hidx, hdup]

/-- One bulk row whose price does not parse is recorded as a single error
and leaves the store untouched. -/
lemma processOne_parse_fail (r : RawRow) (s : DBState)
    (hp : parseFloat r.price = none) :
    processOne r s = ⟨s, 0, 1, [(r, RowError.parseError)]⟩ := by
  simp [processOne, hp]

/-- Claim C3 counterexample: a 201-character (post-trim) name is inserted
by the bulk path with one success and no error, though the claim says it
must fail with a ValidationError. -/
theorem length_limit_cex :
    (bulk_insert_products [longRow] initState).success = 1 ∧
    (bulk_insert_products [longRow] initState).errorCount = 0 ∧
    200 < (pyStrip longRow.name).length := by
  exact ⟨by decide, by decide, by decide⟩

/-- Claim C3 (amended): no length limit is enforced anywhere — a row with a
parseable price and a fresh name whose trimmed length exceeds 200 inserts
with one success and no errors, and a 200-character name succeeds too. -/
theorem no_length_limit :
    (∀ (r : RawRow) (s : DBState) (v : Rat),
       200 < (pyStrip r.name).length →
       parseFloat r.price = some v →
       s.products.any (fun p => p.name == pyStrip r.name) = false →
       (bulk_insert_products [r] s).success = 1 ∧
         (bulk_insert_products [r] s).errorCount = 0 ∧
         (bulk_insert_products [r] s).errors = []) ∧
    (bulk_insert_products [row200] initState).success = 1 ∧
    (bulk_insert_products [row200] initState).errorCount = 0 := by
  refine ⟨?_, by decide, by decide⟩
  intro r s v hlen hp hdup
  have hn : ¬ pyStrip r.name = "" := by
    intro h
    rw [h] at hlen
    simp [String.length] at hlen
  rw [bulk_single_ok r s v hp hn hdup]
  exact ⟨rfl, rfl, rfl⟩

/-- Witness for the amended C3 theorem at a concrete 201-character name. -/
theorem no_length_limit_witness :
    (bulk_insert_products [longRow] initState).success = 1 ∧
    (bulk_insert_products [longRow] initState).errorCount = 0 ∧
    (bulk_insert_products [longRow] initState).errors = [] :=
  no_length_limit.1 longRow initState 1 (by decide) (by decide) (by decide)

/-- Claim C4 counterexample: a bulk row with price `-1` is inserted with
one success and no error, and a product with negative price is persisted,
though the claim says every negative price must fail with ValidationError. -/
theorem negative_price_cex :
    (bulk_insert_products [rowSoap] initState).success = 1 ∧
    (bulk_insert_products [rowSoap] initState).errorCount = 0 ∧
    (bulk_insert_products [rowSoap] initState).state.products.any
      (fun p => decide (p.price < 0)) = true := by
  exact ⟨by decide, by decide, by decide⟩

/-- Claim C4 (amended): no negativity check exists — a fresh row whose
price parses to a negative number is inserted and persists that negative
price; a non-numeric price fails the row with a parse error on the bulk
path and fails the single-insert route with a parse failure; price 0
succeeds. -/
theorem price_validation :
    (∀ (r : RawRow) (s : DBState) (v : Rat),
       parseFloat r.price = some v → v < 0 → ¬ pyStrip r.name = "" →
       s.products.any (fun p => p.name == pyStrip r.name) = false →
       (bulk_insert_products [r] s).success = 1 ∧
         (bulk_insert_products [r] s).errorCount = 0 ∧
         (bulk_insert_products [r] s).state.products.any
           (fun p => decide (p.price < 0)) = true) ∧
    (∀ (r : RawRow) (s : DBState), parseFloat r.price = none →
       bulk_insert_products [r] s = ⟨s, 0, 1, [(r, RowError.parseError)]⟩) ∧
    (∀ (n p c : String) (s : DBState), parseFloat p = none →
       import_data n p c s = (s, ImportOutcome.parseFailure)) ∧
    (bulk_insert_products [rowZero] initState).success = 1 ∧
    (bulk_insert_products [rowZero] initState).errorCount = 0 := by
  refine ⟨?_, ?_, ?_, by decide, by decide⟩
  · intro r s v hp hv hn hdup
    rw [bulk_single_ok r s v hp hn hdup]
    refine ⟨rfl, rfl, ?_⟩
    simp [List.any_append, hv]
  · intro r s hp
    simp [bulk_insert_products, processOne_parse_fail r s hp]
  · intro n p c s hp
    simp [import_data, hp]

/-- Witness for the amended C4 theorem: price `-1` inserts and persists,
price `abc` errors on both paths. -/
theorem price_validation_witness :
    ((bulk_insert_products [rowSoap] initState).success = 1 ∧
      (bulk_insert_products [rowSoap] initState).errorCount = 0 ∧
      (bulk_insert_products [rowSoap] initState).state.products.any
        (fun p => decide (p.price < 0)) = true) ∧
    bulk_insert_products [rowBread] initState =
      ⟨initState, 0, 1, [(rowBread, RowError.parseError)]⟩ ∧
    import_data "Bread" "abc" "" initState =
      (initState, ImportOutcome.parseFailure) :=
  ⟨price_validation.1 rowSoap initState (-1) (by decide) (by decide)
     (by decide) (by decide),
   price_validation.2.1 rowBread initState (by decide),
   price_validation.2.2.1 "Bread" "abc" "" initState (by decide)⟩

/-- Claim C5 counterexample: on the app.py `import_file` bulk path, two
identical rows yield `success = 2` although only one row is stored — the
ignored duplicate IS counted in the success count, contradicting the claim
that it is counted neither as success nor as error. -/
theorem import_file_duplicate_cex :
    (import_file_rows [fileMilk, fileMilk] initState).success = 2 ∧
    (import_file_rows [fileMilk, fileMilk] initState).state.products.length = 1 := by
  exact ⟨by decide, by decide⟩

/-- Claim C5 (amended): with the unique index present, a duplicate name is
skipped by the store on every bulk path, but the two bulk paths count it
differently — `bulk_insert_products` counts it neither as success nor as
error (rowcount is checked), while the `import_file` route still counts it
as a success; the single-insert path rejects the duplicate with a
uniqueness error and leaves the store unchanged. -/
theorem duplicate_policy :
    (∀ (r : RawRow) (s : DBState) (v : Rat),
       s.indexExists = true → parseFloat r.price = some v →
       ¬ pyStrip r.name = "" →
       s.products.any (fun p => p.name == pyStrip r.name) = true →
       bulk_insert_products [r] s = ⟨s, 0, 0, []⟩) ∧
    (∀ (fr : FileRow) (s : DBState) (v : Rat),
       s.indexExists = true → filePrice fr = some v →
       ¬ pyStrip (fr.name.getD "") = "" →
       s.products.any (fun p => p.name == pyStrip (fr.name.getD "")) = true →
       import_file_rows [fr] s = ⟨s, 1, []⟩) ∧
    (∀ (n : String) (v : Rat) (c : Option String) (s : DBState),
       s.indexExists = true → s.products.any (fun p => p.name == n) = true →
       insert_product n v c s = (s, none)) := by
  refine ⟨?_, ?_, ?_⟩
  · intro r s v hidx hp hn hdup
    simp [bulk_insert_products, processOne_dup r s v hidx hp hn hdup]
  · intro fr s v hidx hp hn hdup
    simp [import_file_rows, processFileRow, hp, hn, insertOrIgnore, hidx, hdup]
  · intro n v c s hidx hdup
    simp [insert_product, hidx, hdup]

/-- Witness for the amended C5 theorem: inserting Milk again into a store
already holding Milk. -/
theorem duplicate_policy_witness :
    bulk_insert_products [rowMilk] stMilk = ⟨stMilk, 0, 0, []⟩ ∧
    import_file_rows [fileMilk] stMilk = ⟨stMilk, 1, []⟩ ∧
    insert_product "Milk" 2 none stMilk = (stMilk, none) :=
  ⟨duplicate_policy.1 rowMilk stMilk 2 rfl (by decide) (by decide) (by decide),
   duplicate_policy.2.1 fileMilk stMilk 2 rfl (by decide) (by decide) (by decide),
   duplicate_policy.2.2 "Milk" 2 none stMilk rfl (by decide)⟩

/-- Appending a row whose name occurs in none of the existing rows keeps
the pairwise name-distinctness of the list. -/
lemma pairwise_append_fresh (l : List Product) (x : Product)
    (hu : l.Pairwise fun a b => a.name ≠ b.name)
    (hfresh : l.any (fun p => p.name == x.name) = false) :
    (l ++ [x]).Pairwise fun a b => a.name ≠ b.name := by
  rw [List.pairwise_append]
  refine ⟨hu, List.pairwise_singleton _ _, ?_⟩
  intro a ha b hb
  simp only [List.mem_singleton] at hb
  subst hb
  have := List.any_eq_false.mp hfresh a ha
  simpa using this

/-- INSERT OR IGNORE preserves name uniqueness when the unique index is in
place, and never touches the schema flags. -/
lemma insertOrIgnore_unique (n : String) (v : Rat) (c : Option String)
    (s : DBState) (hidx : s.indexExists = true) (hu : namesUnique s) :
    namesUnique (insertOrIgnore n v c s).1 := by
  unfold insertOrIgnore
  rw [hidx, Bool.true_and]
  cases h : s.products.any (fun p => p.name == n) with
  | true => simpa [namesUnique] using hu
  | false =>
    simp only [Bool.false_eq_true, if_false]
    exact pairwise_append_fresh s.products _ hu h

/-- INSERT OR IGNORE leaves the schema flags unchanged. -/
lemma insertOrIgnore_flags (n : String) (v : Rat) (c : Option String)
    (s : DBState) :
    (insertOrIgnore n v c s).1.tableExists = s.tableExists ∧
    (insertOrIgnore n v c s).1.indexExists = s.indexExists := by
  unfold insertOrIgnore
  split <;> simp

/-- One bulk loop iteration preserves name uniqueness under the index. -/
lemma processOne_unique (r : RawRow) (s : DBState)
    (hidx : s.indexExists = true) (hu : namesUnique s) :
    namesUnique (processOne r s).state := by
  unfold processOne
  cases hp : parseFloat r.price with
  | none => simpa [namesUnique] using hu
  | some v =>
    by_cases hn : pyStrip r.name = ""
    · simpa [hn, namesUnique] using hu
    · simpa [hn] using insertOrIgnore_unique (pyStrip r.name) v (normCat r.category) s hidx hu

/-- One bulk loop iteration leaves the schema flags unchanged. -/
lemma processOne_flags (r : RawRow) (s : DBState) :
    (processOne r s).state.tableExists = s.tableExists ∧
    (processOne r s).state.indexExists = s.indexExists := by
  unfold processOne
  cases hp : parseFloat r.price with
  | none => simp
  | some v =>
    by_cases hn : pyStrip r.name = ""
    · simp [hn]
    · simpa [hn] using insertOrIgnore_flags (pyStrip r.name) v (normCat r.category) s

/-- The bulk loop leaves the schema flags unchanged. -/
lemma bulk_flags : ∀ (rows : List RawRow) (s : DBState),
    (bulk_insert_products rows s).state.tableExists = s.tableExists ∧
    (bulk_insert_products rows s).state.indexExists = s.indexExists := by
  intro rows
  induction rows with
  | nil => intro s; exact ⟨rfl, rfl⟩
  | cons r rest ih =>
    intro s
    have h1 := processOne_flags r s
    have h2 := ih (processOne r s).state
    simp only [bulk_insert_products]
    exact ⟨h2.1.trans h1.1, h2.2.trans h1.2⟩

/-- The bulk loop preserves name uniqueness under the index. -/
lemma bulk_unique : ∀ (rows : List RawRow) (s : DBState),
    s.indexExists = true → namesUnique s →
    namesUnique (bulk_insert_products rows s).state := by
  intro rows
  induction rows with
  | nil => intro s _ hu; exact hu
  | cons r rest ih =>
    intro s hidx hu
    have hidx' : (processOne r s).state.indexExists = true :=
      (processOne_flags r s).2.trans hidx
    have hu' := processOne_unique r s hidx hu
    simpa [bulk_insert_products] using ih (processOne r s).state hidx' hu'

/-- One `import_file` loop iteration preserves name uniqueness under the
index. -/
lemma processFileRow_unique (r : FileRow) (s : DBState)
    (hidx : s.indexExists = true) (hu : namesUnique s) :
    namesUnique (processFileRow r s).1 := by
  unfold processFileRow
  cases hp : filePrice r with
  | none => simpa [namesUnique] using hu
  | some v =>
    by_cases hn : pyStrip (r.name.getD "") = ""
    · simpa [hn, namesUnique] using hu
    · simpa [hn] using insertOrIgnore_unique (pyStrip (r.name.getD "")) v _ s hidx hu

/-- One `import_file` loop iteration leaves the schema flags unchanged. -/
lemma processFileRow_flags (r : FileRow) (s : DBState) :
    (processFileRow r s).1.tableExists = s.tableExists ∧
    (processFileRow r s).1.indexExists = s.indexExists := by
  unfold processFileRow
  cases hp : filePrice r with
  | none => simp
  | some v =>
    by_cases hn : pyStrip (r.name.getD "") = ""
    · simp [hn]
    · simpa [hn] using insertOrIgnore_flags (pyStrip (r.name.getD "")) v _ s

/-- The `import_file` loop preserves name uniqueness under the index. -/
lemma import_file_unique : ∀ (rows : List FileRow) (s : DBState),
    s.indexExists = true → namesUnique s →
    namesUnique (import_file_rows rows s).state := by
  intro rows
  induction rows with
  | nil => intro s _ hu; exact hu
  | cons r rest ih =>
    intro s hidx hu
    have hidx' : (processFileRow r s).1.indexExists = true :=
      (processFileRow_flags r s).2.trans hidx
    have hu' := processFileRow_unique r s hidx hu
    simpa [import_file_rows] using ih (processFileRow r s).1 hidx' hu'

/-- Claim C2 counterexample: the single-insert path validates nothing — it
inserts name `X` with price `-5` successfully, so a persisted product
violates the claimed `price ≥ 0` invariant. -/
theorem insert_negative_price_cex :
    (insert_product "X" (-5 : Rat) none initState).2 = some 1 ∧
    (insert_product "X" (-5 : Rat) none initState).1.products.any
      (fun p => decide (p.price < 0)) = true := by
  exact ⟨by decide, by decide⟩

/-- Claim C2 (amended): of the claimed invariant only name uniqueness is
enforced (by the unique index): every store operation — single insert, bulk
insert, file import, seeding, table creation, search — preserves pairwise
distinctness of persisted names whenever the index exists.  Neither
`price ≥ 0` nor non-empty trimmed names is enforced on the single-insert
path. -/
theorem store_ops_preserve_uniqueness :
    ∀ s : DBState, s.indexExists = true → namesUnique s →
      (∀ (n : String) (v : Rat) (c : Option String),
         namesUnique (insert_product n v c s).1) ∧
      (∀ rows : List RawRow, namesUnique (bulk_insert_products rows s).state) ∧
      (∀ rows : List FileRow, namesUnique (import_file_rows rows s).state) ∧
      (∀ rows : List CsvRow, namesUnique (seed_from_csv_if_needed rows s)) ∧
      namesUnique (create_table s) ∧
      (∀ q : String, namesUnique (search_op q s).1) := by
  intro s hidx hu
  refine ⟨?_, fun rows => bulk_unique rows s hidx hu,
    fun rows => import_file_unique rows s hidx hu, ?_, hu, fun _ => hu⟩
  · intro n v c
    unfold insert_product
    rw [hidx, Bool.true_and]
    cases h : s.products.any (fun p => p.name == n) with
    | true => simpa [namesUnique] using hu
    | false =>
      simp only [Bool.false_eq_true, if_false]
      exact pairwise_append_fresh s.products _ hu h
  · intro rows
    unfold seed_from_csv_if_needed
    split
    · exact hu
    · exact bulk_unique _ s hidx hu

/-- Witness for the amended C2 theorem: uniqueness preserved when bulk
inserting into the freshly initialized empty store. -/
theorem store_ops_preserve_uniqueness_witness :
    namesUnique (bulk_insert_products [rowApple] initState).state :=
  ((store_ops_preserve_uniqueness initState rfl List.Pairwise.nil).2.1) [rowApple]

/-- Seeding a non-empty store is a no-op. -/
lemma seed_pos (rows : List CsvRow) (s : DBState)
    (h : 0 < s.products.length) : seed_from_csv_if_needed rows s = s := by
  unfold seed_from_csv_if_needed
  rw [if_pos h]

/-- Seeding an empty store bulk-inserts the preprocessed rows. -/
lemma seed_empty (rows : List CsvRow) (s : DBState)
    (h : ¬ 0 < s.products.length) :
    seed_from_csv_if_needed rows s =
      (bulk_insert_products (rows.filterMap processCsvRow) s).state := by
  unfold seed_from_csv_if_needed
  rw [if_neg h]

/-- The `r.get(lo) or r.get(hi) or ""` chain yields the same text whether
the present key is the lowercase or the capitalized spelling. -/
lemma extractField_swap (lo : Option String) :
    extractField lo none = extractField none lo := by
  cases lo with
  | none => rfl
  | some a => by_cases h : a = "" <;> simp [extractField, h]

/-- A seed row with capitalized headers preprocesses identically to the
same row with lowercase headers. -/
lemma processCsvRow_cap (t : String × String × Option String) :
    processCsvRow (capRow t) = processCsvRow (lowRow t) := by
  simp only [processCsvRow, capRow, lowRow]
  rw [← extractField_swap (some t.1), ← extractField_swap (some t.2.1),
    ← extractField_swap t.2.2]

/-- A seed row whose extracted name or price strips to empty is dropped in
preprocessing. -/
lemma processCsvRow_skip (r : CsvRow)
    (h : pyStrip (extractField r.name r.nameCap) = "" ∨
         pyStrip (extractField r.price r.priceCap) = "") :
    processCsvRow r = none := by
  unfold processCsvRow
  rcases h with h | h <;> simp [h]

/-- One bulk loop iteration either leaves the state exactly as it was or
strictly lengthens the product list. -/
lemma processOne_state_cases (r : RawRow) (s : DBState) :
    (processOne r s).state = s ∨
    s.products.length < (processOne r s).state.products.length := by
  unfold processOne
  cases hp : parseFloat r.price with
  | none => left; rfl
  | some v =>
    by_cases hn : pyStrip r.name = ""
    · left; simp [hn]
    · simp only [hn, if_false]
      unfold insertOrIgnore
      split
      · left; rfl
      · right; simp

/-- The bulk loop never shrinks the product list. -/
lemma bulk_len_le : ∀ (rows : List RawRow) (s : DBState),
    s.products.length ≤ (bulk_insert_products rows s).state.products.length := by
  intro rows
  induction rows with
  | nil => intro s; exact Nat.le_refl _
  | cons r rest ih =>
    intro s
    simp only [bulk_insert_products]
    rcases processOne_state_cases r s with h1 | h1
    · rw [h1]; exact ih s
    · exact Nat.le_trans (Nat.le_of_lt h1) (ih (processOne r s).state)

/-- The bulk loop either leaves the state exactly unchanged or strictly
lengthens the product list. -/
lemma bulk_state_cases : ∀ (rows : List RawRow) (s : DBState),
    (bulk_insert_products rows s).state = s ∨
    s.products.length < (bulk_insert_products rows s).state.products.length := by
  intro rows
  induction rows with
  | nil => intro s; left; rfl
  | cons r rest ih =>
    intro s
    simp only [bulk_insert_products]
    rcases processOne_state_cases r s with h1 | h1
    · rw [h1]; exact ih s
    · right
      exact Nat.lt_of_lt_of_le h1 (bulk_len_le rest (processOne r s).state)

/-- CREATE IF NOT EXISTS on an already-initialized schema changes nothing. -/
lemma create_table_eq_self (s : DBState) (ht : s.tableExists = true)
    (hi : s.indexExists = true) : create_table s = s := by
  cases s
  simp_all [create_table]

/-- Seeding leaves the schema flags unchanged. -/
lemma seed_flags (rows : List CsvRow) (s : DBState) :
    (seed_from_csv_if_needed rows s).tableExists = s.tableExists ∧
    (seed_from_csv_if_needed rows s).indexExists = s.indexExists := by
  unfold seed_from_csv_if_needed
  split
  · exact ⟨rfl, rfl⟩
  · exact bulk_flags _ s

/-- Claim C7: seeding bulk-inserts the external rows only when the store
holds zero products and is a no-op otherwise; capitalized headers
`Name,Price,Category` populate the store identically to lowercase headers;
and a row missing its name or price is dropped before the bulk insert, so
it contributes neither a product nor an error. -/
theorem seed_spec :
    (∀ (rows : List CsvRow) (s : DBState), 0 < s.products.length →
       seed_from_csv_if_needed rows s = s) ∧
    (∀ (rows : List CsvRow) (s : DBState), s.products = [] →
       seed_from_csv_if_needed rows s =
         (bulk_insert_products (rows.filterMap processCsvRow) s).state) ∧
    (∀ (ts : List (String × String × Option String)) (s : DBState),
       seed_from_csv_if_needed (ts.map capRow) s =
         seed_from_csv_if_needed (ts.map lowRow) s) ∧
    (∀ (r : CsvRow) (rows : List CsvRow) (s : DBState),
       pyStrip (extractField r.name r.nameCap) = "" ∨
         pyStrip (extractField r.price r.priceCap) = "" →
       seed_from_csv_if_needed (r :: rows) s =
         seed_from_csv_if_needed rows s) := by
  refine ⟨seed_pos, ?_, ?_, ?_⟩
  · intro rows s hempty
    apply seed_empty
    rw [hempty]
    simp
  · intro ts s
    have hcomp : processCsvRow ∘ capRow = processCsvRow ∘ lowRow := by
      funext t
      exact processCsvRow_cap t
    simp only [seed_from_csv_if_needed, List.filterMap_map, hcomp]
  · intro r rows s h
    have h0 := processCsvRow_skip r h
    simp only [seed_from_csv_if_needed, List.filterMap_cons, h0]

/-- Witness for the C7 theorem: a non-empty store is untouched, an empty
store receives the bulk insert, and a row without a name is skipped. -/
theorem seed_spec_witness :
    seed_from_csv_if_needed [csvMilkLow] stMilk = stMilk ∧
    seed_from_csv_if_needed [csvMilkLow] initState =
      (bulk_insert_products ([csvMilkLow].filterMap processCsvRow) initState).state ∧
    seed_from_csv_if_needed [csvNoName] initState =
      seed_from_csv_if_needed [] initState :=
  ⟨seed_spec.1 [csvMilkLow] stMilk (by decide),
   seed_spec.2.1 [csvMilkLow] initState rfl,
   seed_spec.2.2.2 csvNoName [] initState (Or.inl (by decide))⟩

/-- Claim C8: store initialization is idempotent — `create_table` composed
with itself equals one call, it leaves the persisted products untouched and
sets each schema flag (the Boolean model of "exists exactly once"), and the
full bring-up (schema creation plus conditional seeding) applied twice
equals one application, with no error anywhere (every operation is total). -/
theorem store_init_idempotent :
    (∀ s : DBState, create_table (create_table s) = create_table s) ∧
    (∀ s : DBState, (create_table s).products = s.products) ∧
    (∀ s : DBState,
       (create_table s).tableExists = true ∧ (create_table s).indexExists = true) ∧
    (∀ (rows : List CsvRow) (s : DBState),
       ensure_db_initialized rows (ensure_db_initialized rows s) =
         ensure_db_initialized rows s) := by
  refine ⟨fun s => rfl, fun s => rfl, fun s => ⟨rfl, rfl⟩, ?_⟩
  intro rows s
  unfold ensure_db_initialized
  have h2flags := seed_flags rows (create_table s)
  have hct : create_table (seed_from_csv_if_needed rows (create_table s)) =
      seed_from_csv_if_needed rows (create_table s) :=
    create_table_eq_self _ h2flags.1 h2flags.2
  rw [hct]
  by_cases hpos :
      0 < (seed_from_csv_if_needed rows (create_table s)).products.length
  · exact seed_pos rows _ hpos
  · by_cases hp1 : 0 < (create_table s).products.length
    · rw [seed_pos rows _ hp1]
      exact seed_pos rows _ hp1
    · have he := seed_empty rows (create_table s) hp1
      rcases bulk_state_cases (rows.filterMap processCsvRow) (create_table s)
        with hc | hc
      · rw [he, hc, seed_empty rows _ hp1, hc]
      · exfalso
        rw [← he] at hc
        omega

end Grocery
